import Mathlib

/-!
Verification of `my_lambda_function/index.py` (amancevice/lambda-compose).

The Python source is:

```
URI = os.getenv('URI', 'https://jsonplaceholder.typicode.com/todos')

def handler(event, context):
    resp = requests.get(URI).json()
    frame = pandas.DataFrame(resp)
    counts = frame.groupby('completed')['id'].count()
    return {'CompletedCount': counts.to_dict()}
```

We shallowly embed the pipeline: the HTTP layer is a function from URLs to
outcomes (unreachable, or a response with a status code and a body that either
parses to a JSON value or not), `requests.get(...).json()` raises on an
unreachable host or a malformed body and ignores the status code, and the
pandas fragment is embedded by its observable behaviour on a list of JSON
objects:

* `pandas.DataFrame(resp)` builds a frame whose columns are the keys present
  in the records; a missing key or an explicit JSON `null` both yield a
  missing (NaN/None) cell, which `groupby` (with its default `dropna=True`)
  and `count` both ignore.
* `frame.groupby('completed')` raises `KeyError` when no record carries a
  `"completed"` key (in particular on the empty array), and `TypeError` when
  a group key is unhashable (a JSON array or object).
* `[...]['id']` raises `KeyError` when no record carries an `"id"` key.
* `.count()` counts the non-null `"id"` cells of each group.
-/

set_option maxHeartbeats 1000000

namespace LambdaCompose

/-- JSON values, as produced by parsing a response body. -/
inductive JVal where
  | null : JVal
  | bool : Bool → JVal
  | num : Int → JVal
  | str : String → JVal
  | arr : List JVal → JVal
  | obj : List (String × JVal) → JVal

mutual

/-- Decidable equality on JSON values (written by hand: `deriving` does not
handle the nested occurrences). -/
def JVal.decEq : (a b : JVal) → Decidable (a = b)
  | .null, .null => .isTrue rfl
  | .null, .bool _ => .isFalse nofun
  | .null, .num _ => .isFalse nofun
  | .null, .str _ => .isFalse nofun
  | .null, .arr _ => .isFalse nofun
  | .null, .obj _ => .isFalse nofun
  | .bool _, .null => .isFalse nofun
  | .bool a, .bool b =>
    if h : a = b then .isTrue (by rw [h]) else .isFalse fun hh => h (by injection hh)
  | .bool _, .num _ => .isFalse nofun
  | .bool _, .str _ => .isFalse nofun
  | .bool _, .arr _ => .isFalse nofun
  | .bool _, .obj _ => .isFalse nofun
  | .num _, .null => .isFalse nofun
  | .num _, .bool _ => .isFalse nofun
  | .num a, .num b =>
    if h : a = b then .isTrue (by rw [h]) else .isFalse fun hh => h (by injection hh)
  | .num _, .str _ => .isFalse nofun
  | .num _, .arr _ => .isFalse nofun
  | .num _, .obj _ => .isFalse nofun
  | .str _, .null => .isFalse nofun
  | .str _, .bool _ => .isFalse nofun
  | .str _, .num _ => .isFalse nofun
  | .str a, .str b =>
    if h : a = b then .isTrue (by rw [h]) else .isFalse fun hh => h (by injection hh)
  | .str _, .arr _ => .isFalse nofun
  | .str _, .obj _ => .isFalse nofun
  | .arr _, .null => .isFalse nofun
  | .arr _, .bool _ => .isFalse nofun
  | .arr _, .num _ => .isFalse nofun
  | .arr _, .str _ => .isFalse nofun
  | .arr xs, .arr ys =>
    match JVal.decEqArr xs ys with
    | .isTrue h => .isTrue (by rw [h])
    | .isFalse h => .isFalse fun hh => h (by injection hh)
  | .arr _, .obj _ => .isFalse nofun
  | .obj _, .null => .isFalse nofun
  | .obj _, .bool _ => .isFalse nofun
  | .obj _, .num _ => .isFalse nofun
  | .obj _, .str _ => .isFalse nofun
  | .obj _, .arr _ => .isFalse nofun
  | .obj xs, .obj ys =>
    match JVal.decEqObj xs ys with
    | .isTrue h => .isTrue (by rw [h])
    | .isFalse h => .isFalse fun hh => h (by injection hh)

/-- Decidable equality on lists of JSON values. -/
def JVal.decEqArr : (xs ys : List JVal) → Decidable (xs = ys)
  | [], [] => .isTrue rfl
  | [], _ :: _ => .isFalse nofun
  | _ :: _, [] => .isFalse nofun
  | x :: xs, y :: ys =>
    match JVal.decEq x y, JVal.decEqArr xs ys with
    | .isTrue h1, .isTrue h2 => .isTrue (by rw [h1, h2])
    | .isFalse h1, _ => .isFalse fun hh => h1 (by injection hh)
    | _, .isFalse h2 => .isFalse fun hh => h2 (by injection hh)

/-- Decidable equality on lists of key-value fields. -/
def JVal.decEqObj : (xs ys : List (String × JVal)) → Decidable (xs = ys)
  | [], [] => .isTrue rfl
  | [], _ :: _ => .isFalse nofun
  | _ :: _, [] => .isFalse nofun
  | (k, x) :: xs, (l, y) :: ys =>
    match String.decEq k l, JVal.decEq x y, JVal.decEqObj xs ys with
    | .isTrue h0, .isTrue h1, .isTrue h2 => .isTrue (by rw [h0, h1, h2])
    | .isFalse h0, _, _ =>
      .isFalse fun hh => h0 (by injection hh with hh1 hh2; injection hh1)
    | _, .isFalse h1, _ =>
      .isFalse fun hh => h1 (by injection hh with hh1 hh2; injection hh1)
    | _, _, .isFalse h2 => .isFalse fun hh => h2 (by injection hh)

end

instance : DecidableEq JVal := JVal.decEq

/-- A JSON object (a Python dict): association list with distinct keys. -/
abbrev JObj := List (String × JVal)

/-- The Python exceptions the pipeline can raise. -/
inductive PyError where
  | connectionError : PyError
  | jsonDecodeError : PyError
  | keyError : String → PyError
  | typeError : PyError
deriving DecidableEq

/-- An HTTP response: a status code and a body, recorded as `some v` when the
body is well-formed JSON parsing to `v` and `none` when it is malformed. -/
structure HttpResponse where
  status : Nat
  jsonBody : Option JVal
deriving DecidableEq

/-- Outcome of an HTTP GET: connection failure (unreachable host) or a
response. -/
inductive HttpResult where
  | failure : HttpResult
  | success : HttpResponse → HttpResult
deriving DecidableEq

/-- The network, as seen by the program: what a GET against each URL yields. -/
abbrev Network := String → HttpResult

/-- Model of `requests.get(url).json()`: raises on an unreachable host; raises on a
malformed body; returns the parsed value otherwise.  `requests` does not
inspect the status code (the source never calls `raise_for_status`). -/
def requests_get_json : HttpResult → Except PyError JVal
  | .failure => .error .connectionError
  | .success r =>
    match r.jsonBody with
    | none => .error .jsonDecodeError
    | some v => .ok v

/-- The cell of column `k` in the row built from record `r`: `none` when the
key is absent or its value is JSON `null` (pandas stores NaN/None there, which
`groupby` and `count` treat alike as missing). -/
def cellValue (r : JObj) (k : String) : Option JVal :=
  match r.lookup k with
  | some .null => none
  | some v => some v
  | none => none

/-- Column `k` exists in `DataFrame(records)`: some record carries the key
(even with a `null` value). -/
def hasColumn (records : List JObj) (k : String) : Bool :=
  records.any fun r => (r.lookup k).isSome

/-- Whether a JSON value is hashable as a Python group key (arrays and objects
become unhashable lists and dicts). -/
def hashableKey : JVal → Bool
  | .arr _ => false
  | .obj _ => false
  | _ => true

/-- The distinct group keys of `frame.groupby('completed')`: the distinct
non-missing `"completed"` cell values (`dropna=True` drops the missing
group). -/
def groupKeys (records : List JObj) : List JVal :=
  (records.filterMap fun r => cellValue r "completed").dedup

/-- Model of `groupby('completed')['id'].count()` at group `v`: the number of records
whose `"completed"` cell is `v` and whose `"id"` cell is non-null. -/
def groupCount (records : List JObj) (v : JVal) : Nat :=
  (records.filter fun r =>
    cellValue r "completed" == some v && (cellValue r "id").isSome).length

/-- Model of `counts.to_dict()`: the mapping from each group key to its count. -/
def completedCounts (records : List JObj) : List (JVal × Nat) :=
  (groupKeys records).map fun v => (v, groupCount records v)

/-- Rows of `pandas.DataFrame(resp)`: every element of the array must be an
object. -/
def asRecordsList : List JVal → Except PyError (List JObj)
  | [] => .ok []
  | .obj fields :: xs => (asRecordsList xs).map (fields :: ·)
  | _ :: _ => .error .typeError

/-- Model of `pandas.DataFrame(resp)` for the shapes the pipeline is specified
on: the parsed body must be a JSON array of objects. -/
def asRecords : JVal → Except PyError (List JObj)
  | .arr xs => asRecordsList xs
  | _ => .error .typeError

/-- Model of `frame.groupby('completed')['id'].count().to_dict()`: raises `KeyError`
when the `"completed"` or `"id"` column is absent, `TypeError` when some group
key is unhashable, and otherwise yields the per-group counts. -/
def aggregate (records : List JObj) : Except PyError (List (JVal × Nat)) :=
  if hasColumn records "completed" then
    if hasColumn records "id" then
      if records.all (fun r => ((cellValue r "completed").map hashableKey).getD true) then
        .ok (completedCounts records)
      else .error .typeError
    else .error (.keyError "id")
  else .error (.keyError "completed")

/-- The default source endpoint. -/
def defaultURI : String := "https://jsonplaceholder.typicode.com/todos"

/-- A process environment. -/
abbrev Env := String → Option String

/-- Model of `os.getenv(key, default)`. -/
def os_getenv (env : Env) (key dflt : String) : String :=
  (env key).getD dflt

/-- Model of `URI = os.getenv('URI', ...)`: the module-level constant,
evaluated once, when the module is imported. -/
def loadURI (env : Env) : String :=
  os_getenv env "URI" defaultURI

/-- Model of `handler(event, context)`: GET the module-level `URI`, parse the body as
JSON, build the frame, group and count, and wrap the counts under the single
key `"CompletedCount"`. -/
def handler (URI : String) (net : Network) (event context : JVal) :
    Except PyError (List (String × List (JVal × Nat))) :=
  match requests_get_json (net URI) with
  | .error e => .error e
  | .ok v =>
    match asRecords v with
    | .error e => .error e
    | .ok records =>
      match aggregate records with
      | .error e => .error e
      | .ok counts => .ok [("CompletedCount", counts)]

/-- A whole invocation observed after module load: the module-level `URI` was
bound from the environment at import time (`envAtLoad`); the environment in
force at call time (`envAtCall`) is never read by `handler`. -/
def invocationAfterLoad (envAtLoad : Env) (envAtCall : Env) (net : Network)
    (event context : JVal) : Except PyError (List (String × List (JVal × Nat))) :=
  handler (loadURI envAtLoad) net event context

/-- The `"completed"` cell values of the records that also carry a non-null
`"id"` cell: the multiset the per-group counts are drawn from. -/
def keysWithId (records : List JObj) : List JVal :=
  records.filterMap fun r =>
    if (cellValue r "id").isSome then cellValue r "completed" else none

/-- The worked example of the spec: three records, two completed. -/
def sampleRecords : List JObj :=
  [ [("id", .num 1), ("completed", .bool true)],
    [("id", .num 2), ("completed", .bool false)],
    [("id", .num 3), ("completed", .bool true)] ]

/-- The worked example of the spec, as a response body. -/
def sampleBody : JVal := .arr (sampleRecords.map .obj)

/-- Three records, one of which lacks the `"completed"` field. -/
def partialBody : JVal :=
  .arr [ .obj [("id", .num 1), ("completed", .bool true)],
         .obj [("id", .num 2), ("completed", .bool true)],
         .obj [("id", .num 3)] ]

/-- Two records, one of which lacks the `"completed"` field. -/
def missingRecords : List JObj :=
  [ [("id", .num 1), ("completed", .bool true)],
    [("id", .num 2)] ]

/-- The two records above, as a response body. -/
def missingCompletedBody : JVal := .arr (missingRecords.map .obj)

/-- One well-formed record, used as the body of a non-200 response. -/
def smallBody : JVal :=
  .arr [ .obj [("id", .num 1), ("completed", .bool true)] ]

/-- An environment in which the variable `URI` is set. -/
def envWithURI : Env :=
  fun k => if k = "URI" then some "http://example.test/todos" else none

/-- An environment in which the variable `URI` is unset. -/
def envEmpty : Env := fun _ => none

/-- A cell is never an explicit `null` value: `cellValue` files JSON `null`
under the missing cells. -/
lemma cellValue_ne_some_null (r : JObj) (k : String) : cellValue r k ≠ some .null := by
  unfold cellValue
  cases hl : r.lookup k with
  | none => simp
  | some v => cases v <;> simp

/-- A record with a non-missing cell in column `k` carries the key `k`. -/
lemma lookup_isSome_of_cellValue {r : JObj} {k : String}
    (h : (cellValue r k).isSome) : (r.lookup k).isSome := by
  unfold cellValue at h
  cases hl : r.lookup k with
  | none => rw [hl] at h; simp at h
  | some v => simp

/-- A nonempty record list all of whose records have a non-missing cell in
column `k` yields a frame with column `k`. -/
lemma hasColumn_of_cell {records : List JObj} {k : String}
    (hne : records ≠ []) (h : ∀ r ∈ records, (cellValue r k).isSome) :
    hasColumn records k = true := by
  cases records with
  | nil => exact absurd rfl hne
  | cons r rs =>
    have hr := h r (List.mem_cons_self r rs)
    simp only [hasColumn, List.any_cons, Bool.or_eq_true]
    exact Or.inl (lookup_isSome_of_cellValue hr)

/-- The count of group `v` is how often `v` occurs among the `"completed"`
values of the records that also carry a non-null `"id"`. -/
lemma groupCount_eq_count (records : List JObj) (v : JVal) :
    groupCount records v = (keysWithId records).count v := by
  induction records with
  | nil => rfl
  | cons r rs ih =>
    unfold groupCount keysWithId at ih ⊢
    rw [List.filter_cons, List.filterMap_cons]
    cases hc : cellValue r "completed" with
    | none =>
      cases hid : (cellValue r "id").isSome <;> simp [hc, hid, ih]
    | some w =>
      cases hid : (cellValue r "id").isSome with
      | false => simp [hc, hid, ih]
      | true =>
        by_cases hwv : w = v <;>
          simp [hc, hid, ih, hwv, List.count_cons, Nat.add_comm]

/-- Summing an indicator over a list counts the occurrences. -/
lemma sum_map_indicator {α : Type} [DecidableEq α] (x : α) (d : List α) :
    (d.map fun v => if x == v then 1 else 0).sum = d.count x := by
  induction d with
  | nil => simp
  | cons b d ih =>
    rw [List.map_cons, List.sum_cons, List.count_cons, ih]
    by_cases hbx : x = b
    · subst hbx
      simp [Nat.add_comm]
    · have h1 : (x == b) = false := beq_eq_false_iff_ne.mpr hbx
      have h2 : (b == x) = false := beq_eq_false_iff_ne.mpr (Ne.symm hbx)
      rw [h1, h2]
      simp

/-- Counting each element of `m` once per entry of a duplicate-free list `d`
covering `m` recovers the length of `m`. -/
lemma sum_map_count_eq_length {α : Type} [DecidableEq α] (d m : List α)
    (hd : d.Nodup) (hm : ∀ x ∈ m, x ∈ d) :
    (d.map fun v => m.count v).sum = m.length := by
  induction m with
  | nil => simp
  | cons x m ih =>
    have hx : x ∈ d := hm x (List.mem_cons_self x m)
    have hm' : ∀ y ∈ m, y ∈ d := fun y hy => hm y (List.mem_cons_of_mem x hy)
    calc (d.map fun v => (x :: m).count v).sum
        = (d.map fun v => m.count v + if x == v then 1 else 0).sum := by
          simp only [List.count_cons]
      _ = (d.map fun v => m.count v).sum
            + (d.map fun v => if x == v then 1 else 0).sum := by
          rw [List.sum_map_add]
      _ = m.length + d.count x := by rw [ih hm', sum_map_indicator]
      _ = (x :: m).length := by
          rw [List.count_eq_one_of_mem hd hx, List.length_cons]

/-- The length of a `filterMap` is the number of hits. -/
lemma length_filterMap_eq_countP {α β : Type} (f : α → Option β) (l : List α) :
    (l.filterMap f).length = l.countP fun x => (f x).isSome := by
  induction l with
  | nil => rfl
  | cons a l ih =>
    rw [List.filterMap_cons, List.countP_cons]
    cases hf : f a with
    | none => simp [hf, ih]
    | some b => simp [hf, ih]

/-- Every element of `keysWithId` is a `"completed"` cell value of some
record. -/
lemma keysWithId_subset {records : List JObj} {x : JVal}
    (h : x ∈ keysWithId records) :
    x ∈ records.filterMap fun r => cellValue r "completed" := by
  rw [keysWithId, List.mem_filterMap] at h
  obtain ⟨r, hr, hx⟩ := h
  rw [List.mem_filterMap]
  refine ⟨r, hr, ?_⟩
  by_cases hid : (cellValue r "id").isSome
  · rwa [if_pos hid] at hx
  · rw [if_neg hid] at hx
    exact absurd hx (by simp)

/-- A successful aggregation returns exactly the per-group counts. -/
lemma aggregate_ok {records : List JObj} {counts : List (JVal × Nat)}
    (h : aggregate records = .ok counts) : counts = completedCounts records := by
  unfold aggregate at h
  split_ifs at h
  injection h with h
  exact h.symm

/-- The total of the per-group counts is the number of records carrying both a
non-missing `"completed"` cell and a non-missing `"id"` cell. -/
lemma sum_completedCounts (records : List JObj) :
    ((completedCounts records).map Prod.snd).sum =
      records.countP fun r =>
        (cellValue r "completed").isSome && (cellValue r "id").isSome := by
  unfold completedCounts
  rw [List.map_map]
  have h1 : (groupKeys records).map (Prod.snd ∘ fun v => (v, groupCount records v))
      = (groupKeys records).map fun v => (keysWithId records).count v := by
    apply List.map_congr_left
    intro v _
    simp [groupCount_eq_count]
  rw [h1, sum_map_count_eq_length (groupKeys records) (keysWithId records)
      (List.nodup_dedup _)
      (fun x hx => by
        rw [groupKeys, List.mem_dedup]
        exact keysWithId_subset hx)]
  unfold keysWithId
  rw [length_filterMap_eq_countP]
  apply List.countP_congr
  intro r _
  cases hid : (cellValue r "id").isSome <;>
    cases hc : (cellValue r "completed").isSome <;> simp [hid, hc]

/-- Building the frame from an array of objects succeeds with those records as
rows. -/
lemma asRecordsList_map_obj (records : List JObj) :
    asRecordsList (records.map .obj) = .ok records := by
  induction records with
  | nil => rfl
  | cons r rs ih =>
    rw [List.map_cons]
    unfold asRecordsList
    rw [ih]
    rfl

/-- Under a reachable host, a parseable array-of-objects body, both columns
present and hashable group keys, `handler` returns the wrapped counts. -/
lemma handler_ok {URI : String} {net : Network} {e c : JVal} {st : Nat}
    {records : List JObj}
    (hnet : net URI = .success ⟨st, some (.arr (records.map .obj))⟩)
    (hcomp : hasColumn records "completed" = true)
    (hid : hasColumn records "id" = true)
    (hhash : records.all
      (fun r => ((cellValue r "completed").map hashableKey).getD true) = true) :
    handler URI net e c = .ok [("CompletedCount", completedCounts records)] := by
  unfold handler requests_get_json
  rw [hnet]
  simp only [asRecords, asRecordsList_map_obj, aggregate, hcomp, hid, hhash,
    if_true]

/-- C1: for the upstream body
`[{"id":1,"completed":true},{"id":2,"completed":false},{"id":3,"completed":true}]`,
`handler` returns a mapping whose single top-level key is `"CompletedCount"`
and whose inner mapping assigns count 2 to `true` and count 1 to `false`. -/
theorem c1_sample_counts :
    handler defaultURI (fun _ => .success ⟨200, some sampleBody⟩) .null .null =
      Except.ok [("CompletedCount", [(JVal.bool false, 1), (JVal.bool true, 2)])] := by
  rfl

/-- C2 (counterexample): for the body
`[{"id":1,"completed":true},{"id":2,"completed":true},{"id":3}]` the handler
returns the mapping `{true: 2}`, whose counts sum to 2, not to the number of
records 3: the record without a `"completed"` field is dropped. -/
theorem c2_counterexample :
    handler defaultURI (fun _ => .success ⟨200, some partialBody⟩) .null .null =
      Except.ok [("CompletedCount", [(JVal.bool true, 2)])] ∧
    (([(JVal.bool true, 2)] : List (JVal × Nat)).map Prod.snd).sum ≠ 3 := by
  constructor
  · rfl
  · decide

/-- C2 (amended): when every record of a nonempty upstream array has a
non-missing hashable `"completed"` value and a non-missing `"id"` value, the
handler succeeds and the counts in the returned `"CompletedCount"` mapping sum
to the number of records. -/
theorem c2_sum_of_counts (records : List JObj) (URI : String) (net : Network)
    (e c : JVal) (st : Nat)
    (hne : records ≠ [])
    (h1 : ∀ r ∈ records, (cellValue r "completed").isSome)
    (h2 : ∀ r ∈ records, (cellValue r "id").isSome)
    (h3 : ∀ r ∈ records, ((cellValue r "completed").map hashableKey).getD true = true)
    (hnet : net URI = .success ⟨st, some (.arr (records.map .obj))⟩) :
    handler URI net e c = .ok [("CompletedCount", completedCounts records)] ∧
    ((completedCounts records).map Prod.snd).sum = records.length := by
  have hcomp := hasColumn_of_cell hne h1
  have hid := hasColumn_of_cell hne h2
  have hhash : records.all
      (fun r => ((cellValue r "completed").map hashableKey).getD true) = true :=
    List.all_eq_true.mpr h3
  refine ⟨handler_ok hnet hcomp hid hhash, ?_⟩
  rw [sum_completedCounts]
  rw [List.countP_eq_length]
  intro r hr
  rw [Bool.and_eq_true]
  exact ⟨h1 r hr, h2 r hr⟩

/-- C2 (witness): the amended statement at the three-record sample body. -/
theorem c2_sum_of_counts_witness :
    handler defaultURI (fun _ => .success ⟨200, some (.arr (sampleRecords.map .obj))⟩)
        .null .null =
      .ok [("CompletedCount", completedCounts sampleRecords)] ∧
    ((completedCounts sampleRecords).map Prod.snd).sum = sampleRecords.length :=
  c2_sum_of_counts sampleRecords defaultURI
    (fun _ => .success ⟨200, some (.arr (sampleRecords.map .obj))⟩) .null .null 200
    (by decide) (by decide) (by decide) (by decide) rfl

/-- C3 (counterexample): on the empty array `[]` the handler does not return
`{"CompletedCount": {}}`; it raises `KeyError` because the empty frame has no
`"completed"` column. -/
theorem c3_counterexample :
    handler defaultURI (fun _ => .success ⟨200, some (.arr [])⟩) .null .null =
      Except.error (PyError.keyError "completed") := by
  rfl

/-- C3 (amended): whenever the response body is the empty JSON array, the
invocation fails with `KeyError 'completed'` instead of returning a result. -/
theorem c3_empty_array_fails (URI : String) (net : Network) (e c : JVal) (st : Nat)
    (h : net URI = .success ⟨st, some (.arr [])⟩) :
    handler URI net e c = .error (.keyError "completed") := by
  unfold handler requests_get_json
  rw [h]
  rfl

/-- C3 (witness): the amended statement at a concrete network. -/
theorem c3_empty_array_fails_witness :
    handler defaultURI (fun _ => .success ⟨200, some (.arr [])⟩) .null .null =
      .error (.keyError "completed") :=
  c3_empty_array_fails defaultURI
    (fun _ => .success ⟨200, some (.arr [])⟩) .null .null 200 rfl

/-- C4 (counterexample): for the body `[{"id":1,"completed":true},{"id":2}]`
the handler returns `{true: 1}`: the record without a `"completed"` field is
dropped entirely rather than counted under a null/missing group key. -/
theorem c4_counterexample :
    handler defaultURI (fun _ => .success ⟨200, some missingCompletedBody⟩)
        .null .null =
      Except.ok [("CompletedCount", [(JVal.bool true, 1)])] := by
  rfl

/-- C4 (amended): records whose `"completed"` cell is missing (absent key or
JSON `null`) are dropped by the grouping, not collected under a null/missing
group key: no null key ever appears in the counts, and the counts sum to the
number of records carrying both a non-missing `"completed"` and a non-missing
`"id"` cell. -/
theorem c4_missing_completed_dropped (records : List JObj)
    (counts : List (JVal × Nat)) (h : aggregate records = .ok counts) :
    JVal.null ∉ counts.map Prod.fst ∧
    (counts.map Prod.snd).sum =
      records.countP fun r =>
        (cellValue r "completed").isSome && (cellValue r "id").isSome := by
  have hc := aggregate_ok h
  subst hc
  constructor
  · intro hmem
    have hnull : JVal.null ∈ groupKeys records := by
      unfold completedCounts at hmem
      rw [List.map_map] at hmem
      simpa using hmem
    rw [groupKeys, List.mem_dedup, List.mem_filterMap] at hnull
    obtain ⟨r, _, hr⟩ := hnull
    exact cellValue_ne_some_null r "completed" hr
  · exact sum_completedCounts records

/-- C4 (witness): the amended statement at the two-record body with one
missing `"completed"` field. -/
theorem c4_missing_completed_dropped_witness :
    JVal.null ∉ ([(JVal.bool true, 1)] : List (JVal × Nat)).map Prod.fst ∧
    (([(JVal.bool true, 1)] : List (JVal × Nat)).map Prod.snd).sum =
      missingRecords.countP fun r =>
        (cellValue r "completed").isSome && (cellValue r "id").isSome :=
  c4_missing_completed_dropped missingRecords [(JVal.bool true, 1)] (by rfl)

/-- C5 (counterexample): a non-200 status does not by itself fail the
invocation: a 404 response with a parseable array body still yields a result
mapping, because the source never checks the status code. -/
theorem c5_counterexample :
    handler defaultURI (fun _ => .success ⟨404, some smallBody⟩) .null .null =
      Except.ok [("CompletedCount", [(JVal.bool true, 1)])] := by
  rfl

/-- C5 (amended): an unreachable host fails the invocation with a connection
error, but the status code of a received response is ignored: the handler
behaves identically on two responses differing only in status. -/
theorem c5_failure_modes :
    (∀ (URI : String) (net : Network) (e c : JVal),
        net URI = .failure → handler URI net e c = .error .connectionError) ∧
    (∀ (URI : String) (e c : JVal) (st st' : Nat) (body : Option JVal),
        handler URI (fun _ => .success ⟨st, body⟩) e c =
          handler URI (fun _ => .success ⟨st', body⟩) e c) := by
  constructor
  · intro URI net e c h
    unfold handler requests_get_json
    rw [h]
  · intro URI e c st st' body
    cases body <;> rfl

/-- C5 (witness): the amended statement at a concrete unreachable network. -/
theorem c5_failure_modes_witness :
    handler defaultURI (fun _ => .failure) .null .null = .error .connectionError :=
  c5_failure_modes.1 defaultURI (fun _ => .failure) .null .null rfl

/-- C6: whenever the response body is not well-formed JSON, the invocation
fails with the JSON decode error and returns no result. -/
theorem c6_malformed_json (URI : String) (net : Network) (e c : JVal) (st : Nat)
    (h : net URI = .success ⟨st, none⟩) :
    handler URI net e c = .error .jsonDecodeError := by
  unfold handler requests_get_json
  rw [h]

/-- C6 (witness): the statement at a concrete malformed-body network. -/
theorem c6_malformed_json_witness :
    handler defaultURI (fun _ => .success ⟨200, none⟩) .null .null =
      .error .jsonDecodeError :=
  c6_malformed_json defaultURI (fun _ => .success ⟨200, none⟩) .null .null 200 rfl

/-- C7: the source URL is resolved from the variable `URI`: when it is set the
GET is issued against its value, when it is unset against the default
endpoint; and the handler's outcome depends on the network only at the
resolved URL. -/
theorem c7_uri_override :
    (∀ (env : Env) (u : String), env "URI" = some u → loadURI env = u) ∧
    (∀ env : Env, env "URI" = none → loadURI env = defaultURI) ∧
    (∀ (env : Env) (net net' : Network) (e c : JVal),
        net (loadURI env) = net' (loadURI env) →
        handler (loadURI env) net e c = handler (loadURI env) net' e c) := by
  refine ⟨?_, ?_, ?_⟩
  · intro env u h
    simp [loadURI, os_getenv, h]
  · intro env h
    simp [loadURI, os_getenv, h]
  · intro env net net' e c h
    unfold handler
    rw [h]

/-- C7 (witness): the resolution rules at a set and at an empty
environment. -/
theorem c7_uri_override_witness :
    loadURI envWithURI = "http://example.test/todos" ∧
    loadURI envEmpty = defaultURI :=
  ⟨c7_uri_override.1 envWithURI "http://example.test/todos" (by rfl),
   c7_uri_override.2.1 envEmpty rfl⟩

/-- C8: the handler's result does not depend on the event or the context
argument: two invocations seeing the same upstream response return equal
results. -/
theorem c8_event_context_noninterference (URI : String) (net : Network)
    (e c e' c' : JVal) :
    handler URI net e c = handler URI net e' c' := rfl

/-- C9: the environment is read exactly once, at module load: an invocation
after load is insensitive to the call-time environment, and fetches exactly
the URL resolved from the load-time environment. -/
theorem c9_env_read_once (envAtLoad envAtCall envAtCall' : Env) (net : Network)
    (e c : JVal) :
    invocationAfterLoad envAtLoad envAtCall net e c =
      invocationAfterLoad envAtLoad envAtCall' net e c ∧
    invocationAfterLoad envAtLoad envAtCall net e c =
      handler (loadURI envAtLoad) net e c :=
  ⟨rfl, rfl⟩

/-- C10: every successful invocation returns a mapping with exactly one
top-level key, `"CompletedCount"`, whose value is the per-group count mapping
of the fetched records. -/
theorem c10_result_shape (URI : String) (net : Network) (e c : JVal)
    (res : List (String × List (JVal × Nat)))
    (h : handler URI net e c = .ok res) :
    res.map Prod.fst = ["CompletedCount"] ∧
    ∃ records : List JObj, res = [("CompletedCount", completedCounts records)] := by
  unfold handler at h
  split at h
  · simp at h
  · split at h
    · simp at h
    · rename_i records hrec
      split at h
      · simp at h
      · rename_i counts hagg
        injection h with h
        have hcounts := aggregate_ok hagg
        subst hcounts
        subst h
        exact ⟨rfl, records, rfl⟩

/-- C10 (witness): the statement at the sample body. -/
theorem c10_result_shape_witness :
    ([("CompletedCount", [(JVal.bool false, 1), (JVal.bool true, 2)])] :
        List (String × List (JVal × Nat))).map Prod.fst = ["CompletedCount"] ∧
    ∃ records : List JObj,
      [("CompletedCount", [(JVal.bool false, 1), (JVal.bool true, 2)])] =
        [("CompletedCount", completedCounts records)] :=
  c10_result_shape defaultURI (fun _ => .success ⟨200, some sampleBody⟩)
    .null .null [("CompletedCount", [(JVal.bool false, 1), (JVal.bool true, 2)])]
    (by rfl)

end LambdaCompose
